import Mathlib

/-!
Verification of the route-matching core: the app-path collection step
(`app-paths-collector.ts`, `app-paths-routes.ts`) and the default route
matcher manager (compilation snapshot, staleness guard, match query).

JavaScript `Map` objects are modelled as association lists in insertion
order; JavaScript's in-place `Array.prototype.sort()` on string arrays is
modelled as `List.insertionSort (· ≤ ·)`.
-/

set_option maxHeartbeats 1000000

/-- Association-list model of a JS `Map` keyed by strings: `get` returns the
value of the first (and, in reachable states, only) entry with the given key. -/
def lookupKey {β : Type} (k : String) : List (String × β) → Option β
  | [] => none
  | (k', v) :: rest => if k = k' then some v else lookupKey k rest

/-- Model of `Map.set` on a key that is already present: replace the value at
the first entry with that key, keeping the entry order. -/
def updateEntry {β : Type} (k : String) (v : β) : List (String × β) → List (String × β)
  | [] => []
  | (k', v') :: rest =>
    if k' = k then (k', v) :: rest else (k', v') :: updateEntry k v rest

/-- Model of JavaScript's `Array.prototype.sort()` on an array of strings. -/
def sortStrings (l : List String) : List String :=
  List.insertionSort (· ≤ ·) l

/-- Aggregate produced by `AppPathsCollector.get` and `AppPathsRoutes.get`:
the `{ page, pathname, appPaths }` record. -/
structure AppPaths where
  page : String
  pathname : String
  appPaths : List String
deriving DecidableEq

/-- State of `AppPathsCollector` (app-paths-collector.ts): the private
`appPaths` map from pathname to the pages pushed for it, in push order. -/
structure AppPathsCollector where
  appPaths : List (String × List String)
deriving DecidableEq

/-- Embedding of `AppPathsCollector.push`: append `page` to the list keyed by
`pathname` (creating the entry when absent) and return the new list length. -/
def AppPathsCollector.push (c : AppPathsCollector) (pathname page : String) :
    Nat × AppPathsCollector :=
  match lookupKey pathname c.appPaths with
  | some appPaths =>
    (appPaths.length + 1, ⟨updateEntry pathname (appPaths ++ [page]) c.appPaths⟩)
  | none => (1, ⟨c.appPaths ++ [(pathname, [page])]⟩)

/-- Embedding of `AppPathsCollector.clear`. -/
def AppPathsCollector.clear (_ : AppPathsCollector) : AppPathsCollector := ⟨[]⟩

/-- Embedding of `AppPathsCollector.pathnames`: the keys of the map, sorted. -/
def AppPathsCollector.pathnames (c : AppPathsCollector) : List String :=
  sortStrings (c.appPaths.map Prod.fst)

/-- Embedding of `AppPathsCollector.get`: sort a copy of the pages stored for
`pathname` and return the aggregate whose `page` is the last element of the
sorted copy (the stored lists are never empty, so the default is never used). -/
def AppPathsCollector.get (c : AppPathsCollector) (pathname : String) :
    Option AppPaths :=
  match lookupKey pathname c.appPaths with
  | none => none
  | some appPaths =>
    let sorted := sortStrings appPaths
    some { page := sorted.getLastD (""), pathname := pathname, appPaths := sorted }

/-- Embedding of `AppPathsCollector.toSortedArray`: `get` each sorted pathname,
skipping (impossible) missing entries. -/
def AppPathsCollector.toSortedArray (c : AppPathsCollector) : List AppPaths :=
  c.pathnames.filterMap (fun pathname => c.get pathname)

/-- Embedding of `AppPathsCollector.toObject`. -/
def AppPathsCollector.toObject (c : AppPathsCollector) :
    List (String × List String) :=
  c.pathnames.filterMap (fun pathname =>
    (lookupKey pathname c.appPaths).map (fun l => (pathname, sortStrings l)))

/-- State of `AppPathsRoutes` (app-paths-routes.ts). -/
structure AppPathsRoutes where
  appPaths : List (String × List String)
deriving DecidableEq

/-- Embedding of `AppPathsRoutes.add`: store `[page]` when the pathname is new,
otherwise push `page` and re-sort the stored list in place; return the length. -/
def AppPathsRoutes.add (c : AppPathsRoutes) (pathname page : String) :
    Nat × AppPathsRoutes :=
  match lookupKey pathname c.appPaths with
  | none => (1, ⟨c.appPaths ++ [(pathname, [page])]⟩)
  | some appPaths =>
    let sorted := sortStrings (appPaths ++ [page])
    (sorted.length, ⟨updateEntry pathname sorted c.appPaths⟩)

/-- Embedding of `AppPathsRoutes.pathnames`. -/
def AppPathsRoutes.pathnames (c : AppPathsRoutes) : List String :=
  sortStrings (c.appPaths.map Prod.fst)

/-- Embedding of `AppPathsRoutes.get`: returns the live stored list (already
sorted by `add`), with `page` its last element. -/
def AppPathsRoutes.get (c : AppPathsRoutes) (pathname : String) : Option AppPaths :=
  match lookupKey pathname c.appPaths with
  | none => none
  | some appPaths =>
    some { page := appPaths.getLastD (""), pathname := pathname, appPaths := appPaths }

/-- Embedding of `AppPathsRoutes.toSortedArray`. -/
def AppPathsRoutes.toSortedArray (c : AppPathsRoutes) : List AppPaths :=
  c.pathnames.filterMap (fun pathname => c.get pathname)

/-- Run a sequence of `push` calls on an `AppPathsCollector`. -/
def AppPathsCollector.pushAll : AppPathsCollector → List (String × String) → AppPathsCollector
  | c, [] => c
  | c, (pathname, page) :: rest =>
    AppPathsCollector.pushAll (c.push pathname page).2 rest

/-- Run a sequence of `push` calls, also recording each returned count. -/
def AppPathsCollector.pushTrace : AppPathsCollector → List (String × String) → List Nat × AppPathsCollector
  | c, [] => ([], c)
  | c, (pathname, page) :: rest =>
    let r := c.push pathname page
    let t := AppPathsCollector.pushTrace r.2 rest
    (r.1 :: t.1, t.2)

/-- Run a sequence of `add` calls, also recording each returned count. -/
def AppPathsRoutes.addTrace : AppPathsRoutes → List (String × String) → List Nat × AppPathsRoutes
  | c, [] => ([], c)
  | c, (pathname, page) :: rest =>
    let r := c.add pathname page
    let t := AppPathsRoutes.addTrace r.2 rest
    (r.1 :: t.1, t.2)

/-!
Data model for the route matcher manager (src/unnamed/part_000,
`DefaultRouteMatcherManager`).  Route matchers are opaque objects to the
manager: the embedding keeps their observable surface (`identity`,
`isDynamic`, whether `LocaleRouteMatcher.is` holds, and the `match` method)
plus an allocation id `objId` modelling JavaScript reference identity, so
that `a === b` between matcher objects is `a.objId = b.objId`.
-/

/-- Locale context carried by normalized match options:
`{ locale, inferredFromDefault, pathname }` (spec section 3).  The `pathname`
field is the locale-stripped pathname. -/
structure LocaleInfo where
  locale : String
  inferredFromDefault : Bool
  pathname : String
deriving DecidableEq

/-- Fields of `normalized.options` read by the manager:
`matchedOutputPathname` and `i18n`. -/
structure NormalizedOptionsFields where
  matchedOutputPathname : Option String := none
  i18n : Option LocaleInfo := none
deriving DecidableEq

/-- Embedding of `NormalizedMatchOptions`: the normalized pathname plus the
normalized options record. -/
structure NormalizedMatchOptions where
  pathname : String
  options : NormalizedOptionsFields
deriving DecidableEq

/-- Argument shapes with which `DefaultRouteMatcherManager.validate` invokes
`matcher.match`: the locale info object (locale-aware matchers), a
`{ pathname }` object holding the locale-stripped pathname, or the whole
normalized match options. -/
inductive MatcherCallArg where
  | i18n (info : LocaleInfo)
  | pathnameOnly (pathname : String)
  | normalizedOptions (normalized : NormalizedMatchOptions)

/-- Embedding of a `RouteDefinition` (spec section 3). -/
structure RouteDefinition where
  kind : String
  pathname : String
  page : String
  bundlePath : String
  filename : String
  appPaths : List String
deriving DecidableEq

/-- Embedding of a `RouteMatch`: the matched definition and extracted params. -/
structure RouteMatch where
  definition : RouteDefinition
  params : List (String × String)
deriving DecidableEq

/-- Embedding of a `RouteMatcher` object as the manager observes it.  `objId`
models the object's allocation identity (used only for `===` comparisons);
`localeAware` models `LocaleRouteMatcher.is(matcher)`; `matchFn` is the
object's `match` method. -/
structure RouteMatcher where
  objId : Nat
  identity : String
  isDynamic : Bool
  localeAware : Bool
  matchFn : MatcherCallArg → Option RouteMatch

/-- Embedding of a route matcher provider: `matchers()` either resolves with a
list of matchers or rejects with an error message. -/
structure RouteMatcherProvider where
  matchers : Except String (List RouteMatcher)

/-- Embedding of the `RouteMatchers` record: the manager's compiled snapshot
(static set, ordered dynamic set, duplicates map, all map). -/
structure RouteMatchers where
  static : List RouteMatcher
  dynamic : List RouteMatcher
  duplicates : List (String × List RouteMatcher)
  all : List (String × List RouteMatcher)

/-- Raw match options as supplied by callers of `matchAll`; the manager only
hands them to the normalizer. -/
structure MatchOptions where
  i18n : Option LocaleInfo := none
  matchedOutputPathname : Option String := none
deriving DecidableEq

/-- Input record `{ pathname, options }` handed to the normalizer. -/
structure MatchOptionsInput where
  pathname : String
  options : MatchOptions
deriving DecidableEq

/-- State of a `DefaultRouteMatcherManager`.  The normalizer is kept as an
abstract pure function field (it is an external collaborator, spec section 6).
The settlement of `waitTillReadyPromise` is reported through `ReloadResult`
rather than stored. -/
structure DefaultRouteMatcherManager where
  providers : List RouteMatcherProvider := []
  matchers : RouteMatchers := ⟨[], [], [], []⟩
  lastCompilationID : Nat := 0
  previousMatchers : List RouteMatcher := []
  reloadHasBeenCalled : Bool := false
  normalizer : MatchOptionsInput → NormalizedMatchOptions

/-- Embedding of the private getter `compilationID`: the number of registered
providers, used as the compilation version counter. -/
def DefaultRouteMatcherManager.compilationID (m : DefaultRouteMatcherManager) : Nat :=
  m.providers.length

/-- Embedding of `push(...providers)`: append the providers; this bumps
`compilationID` and does not recompile. -/
def DefaultRouteMatcherManager.push (m : DefaultRouteMatcherManager)
    (providers : List RouteMatcherProvider) : DefaultRouteMatcherManager :=
  { m with providers := m.providers ++ providers }

/-- Errors settled into the `waitTillReadyPromise` by `forceReload`: a
provider rejection, or the compilation-version invariant violation thrown at
the end of the reload. -/
inductive ReloadError where
  | providerError (msg : String)
  | invariantViolation
deriving DecidableEq

/-- Errors thrown by `matchAll` / `validate`: the staleness invariant thrown
before matching, and the locale-context invariant thrown by `validate`. -/
inductive MatchError where
  | staleInvariant
  | localeInvariant
deriving DecidableEq

/-- Reference identity between matcher objects (`cachedMatcher === matchers[index]`). -/
def refEq (a b : RouteMatcher) : Bool :=
  a.objId == b.objId

/-- Embedding of the short-circuit test in `forceReload`: the cached previous
matcher list has the same length as the fresh one and is reference-identical
element by element. -/
def sameMatchers (cached fresh : List RouteMatcher) : Bool :=
  cached.length == fresh.length && (cached.zip fresh).all (fun p => refEq p.1 p.2)

/-- Model of `Promise.all` over the providers' `matchers()` calls: all
providers are invoked; if any rejects, the joint promise rejects with one of
the errors (the first in provider order in this deterministic model). -/
def sequenceExcept : List (Except String (List RouteMatcher)) →
    Except String (List (List RouteMatcher))
  | [] => .ok []
  | .error e :: _ => .error e
  | .ok x :: rest => (sequenceExcept rest).map (fun l => x :: l)

/-- First-occurrence deduplication of identity keys. -/
def uniqueIdentities (keys : List String) : List String :=
  keys.foldl (fun acc k => if k ∈ acc then acc else acc ++ [k]) []

/-- Result of the grouping/dedup step: the `all` map and the `duplicates` map. -/
structure MatcherGroupResult where
  all : List (String × List RouteMatcher)
  duplicates : List (String × List RouteMatcher)

/-- Modelled from the spec: `groupMatcherResults` (imported by the manager
from `./helpers/group-matcher-results`, not part of the provided sources).
Spec section 4.4: partition the matchers by `identity`; `all` maps every
identity seen to the complete list of matchers with that identity (input
order preserved); `duplicates` records the identities that collided, i.e.
those with more than one matcher (spec section 8: the full list per key). -/
def groupMatcherResults (matchers : List RouteMatcher) : MatcherGroupResult :=
  let all := (uniqueIdentities (matchers.map (fun m => m.identity))).map
    (fun k => (k, matchers.filter (fun m => m.identity == k)))
  { all := all, duplicates := all.filter (fun e => 1 < e.2.length) }

/-- Modelled from the spec: `isDynamicRoute` (imported by the manager from
`shared/lib/router/utils`, not part of the provided sources): whether the
pathname itself looks like a dynamic route pattern, i.e. contains a
bracketed `[param]`-style segment. -/
def isDynamicRoute (pathname : String) : Bool :=
  (pathname.splitOn ("/")).any
    (fun s => s.startsWith ("[") && s.endsWith ("]") && 2 < s.length)

/-- Dynamic-pattern test for a single path segment. -/
def isDynamicSegment (s : String) : Bool :=
  s.startsWith ("[") && s.endsWith ("]")

/-- Catch-all test for a single path segment (required `[...name]` or
optional `[[...name]]`). -/
def isCatchAllSegment (s : String) : Bool :=
  s.startsWith ("[...") || s.startsWith ("[[")

/-- Nonempty segments of a pathname. -/
def pathnameSegments (pathname : String) : List String :=
  (pathname.splitOn ("/")).filter (fun s => s ≠ "")

/-- Segment-by-segment left-to-right comparison: a static segment beats a
dynamic segment at the same position (spec section 4.5, rule 3). -/
def compareSegments : List String → List String → Ordering
  | a :: as, b :: bs =>
    if isDynamicSegment a = isDynamicSegment b then compareSegments as bs
    else if isDynamicSegment b then Ordering.lt else Ordering.gt
  | _, _ => Ordering.eq

/-- Modelled from the spec: the specificity order of `sortDynamicMatchers`
(spec section 4.5), most specific first: fewer dynamic segments first; at
equal counts a matcher without a catch-all segment first; then the
segment-by-segment comparison; ties broken by identity string comparison. -/
def specificityCompare (a b : RouteMatcher) : Ordering :=
  let sa := pathnameSegments a.identity
  let sb := pathnameSegments b.identity
  (compare (sa.countP (fun s => isDynamicSegment s = true))
      (sb.countP (fun s => isDynamicSegment s = true))).then
    ((compare (sa.any isCatchAllSegment) (sb.any isCatchAllSegment)).then
      ((compareSegments sa sb).then (compare a.identity b.identity)))

/-- Boolean form of the specificity order. -/
def specificityLE (a b : RouteMatcher) : Bool :=
  match specificityCompare a b with
  | Ordering.gt => false
  | _ => true

/-- Insert a matcher into a list sorted by `specificityLE`. -/
def insertBySpecificity (a : RouteMatcher) : List RouteMatcher → List RouteMatcher
  | [] => [a]
  | b :: bs => if specificityLE a b then a :: b :: bs else b :: insertBySpecificity a bs

/-- Modelled from the spec: `sortDynamicMatchers` (imported by the manager
from `./helpers/sort-dynamic-matchers`, not part of the provided sources):
sort the dynamic matchers into specificity order.  None of the claims below
depends on the resulting order, only on the snapshot storing its output. -/
def sortDynamicMatchers : List RouteMatcher → List RouteMatcher
  | [] => []
  | a :: rest => insertBySpecificity a (sortDynamicMatchers rest)

/-- Outcome of a `forceReload` call: the manager state after the call, and
the settlement of the `waitTillReadyPromise` created by the call (`Except.ok`
when it was resolved, `Except.error` when it was rejected).  The promise
returned by `forceReload` itself always resolves: every error is caught. -/
structure ReloadResult where
  manager : DefaultRouteMatcherManager
  outcome : Except ReloadError Unit

/-- Embedding of `DefaultRouteMatcherManager.forceReload`.  The only
suspension point in the method is the `await Promise.all(...)` over the
provider fetches; `pushedDuringAwait` holds the providers that concurrent
`push` calls register while that await is pending (the `map` over
`this.providers` has already snapshotted the provider list, so the late
providers are not fetched, but they are visible to the final re-read of
`compilationID`).  The `try`/`catch`/`finally` structure of the source is
mirrored exactly: a caught error rejects the wait promise, and the `finally`
block always records `lastCompilationID := compilationID` (the version
captured at entry) before resolving. -/
def DefaultRouteMatcherManager.forceReload (m : DefaultRouteMatcherManager)
    (pushedDuringAwait : List RouteMatcherProvider) : ReloadResult :=
  let compilationID := m.compilationID
  let m1 : DefaultRouteMatcherManager :=
    { m with reloadHasBeenCalled := true,
             providers := m.providers ++ pushedDuringAwait }
  match sequenceExcept (m.providers.map (fun p => p.matchers)) with
  | .error e =>
    { manager := { m1 with lastCompilationID := compilationID },
      outcome := .error (.providerError e) }
  | .ok providersMatchers =>
    let matchers := providersMatchers.flatten
    let grouped := groupMatcherResults matchers
    let m2 : DefaultRouteMatcherManager :=
      { m1 with matchers := { m1.matchers with duplicates := grouped.duplicates } }
    if sameMatchers m2.previousMatchers matchers then
      { manager := { m2 with lastCompilationID := compilationID },
        outcome := .ok () }
    else
      let m3 : DefaultRouteMatcherManager :=
        { m2 with
          previousMatchers := matchers,
          matchers := { m2.matchers with
            all := grouped.all,
            static := matchers.filter (fun matcher => !matcher.isDynamic),
            dynamic := sortDynamicMatchers
              (matchers.filter (fun matcher => matcher.isDynamic)) } }
      if m3.compilationID ≠ compilationID then
        { manager := { m3 with lastCompilationID := compilationID },
          outcome := .error .invariantViolation }
      else
        { manager := { m3 with lastCompilationID := compilationID },
          outcome := .ok () }

/-- Embedding of `load()`: a no-op once a reload has been started, otherwise a
`forceReload`. -/
def DefaultRouteMatcherManager.load (m : DefaultRouteMatcherManager)
    (pushedDuringAwait : List RouteMatcherProvider) : ReloadResult :=
  if m.reloadHasBeenCalled then { manager := m, outcome := .ok () }
  else m.forceReload pushedDuringAwait

/-- The flattened matcher list `forceReload` would compile for the current
provider list, when every provider resolves. -/
def fetchedMatchers (m : DefaultRouteMatcherManager) : Option (List RouteMatcher) :=
  ((sequenceExcept (m.providers.map (fun p => p.matchers))).map List.flatten).toOption

/-- Embedding of the protected `validate` method: locale-aware matchers are
called with the locale context (throwing the locale invariant when it is
absent); locale-naive matchers are called with the locale-stripped pathname
when the locale was inferred from the default, and with the normalized
options otherwise. -/
def DefaultRouteMatcherManager.validate (matcher : RouteMatcher)
    (normalized : NormalizedMatchOptions) : Except MatchError (Option RouteMatch) :=
  if matcher.localeAware then
    match normalized.options.i18n with
    | none => .error .localeInvariant
    | some info => .ok (matcher.matchFn (.i18n info))
  else
    match normalized.options.i18n with
    | some info =>
      if info.inferredFromDefault then .ok (matcher.matchFn (.pathnameOnly info.pathname))
      else .ok (matcher.matchFn (.normalizedOptions normalized))
    | none => .ok (matcher.matchFn (.normalizedOptions normalized))

/-- Trace of the matcher-list loop in the exact-output branch of `matchAll`:
yields the first successful match and stops; a thrown validate error aborts
the generator. -/
def firstMatchLoop (matchers : List RouteMatcher) (normalized : NormalizedMatchOptions) :
    List RouteMatch × Option MatchError :=
  match matchers with
  | [] => ([], none)
  | matcher :: rest =>
    match DefaultRouteMatcherManager.validate matcher normalized with
    | .error e => ([], some e)
    | .ok none => firstMatchLoop rest normalized
    | .ok (some mt) => ([mt], none)

/-- Trace of the static/dynamic scan loops of `matchAll`: yields every
successful match in list order; a thrown validate error aborts the generator
after the matches already yielded. -/
def allMatchesLoop (matchers : List RouteMatcher) (normalized : NormalizedMatchOptions) :
    List RouteMatch × Option MatchError :=
  match matchers with
  | [] => ([], none)
  | matcher :: rest =>
    match DefaultRouteMatcherManager.validate matcher normalized with
    | .error e => ([], some e)
    | .ok none => allMatchesLoop rest normalized
    | .ok (some mt) =>
      let t := allMatchesLoop rest normalized
      (mt :: t.1, t.2)

/-- Embedding of the async generator `matchAll` as the full trace a consumer
can observe: the list of yielded matches in order, and the error that
terminates the iteration, if any.  The staleness guard runs before anything
else; then either the exact-output branch, or the static scan (skipped for
dynamic-looking pathnames) followed by the dynamic scan. -/
def DefaultRouteMatcherManager.matchAll (m : DefaultRouteMatcherManager)
    (pathname : String) (options : MatchOptions) :
    List RouteMatch × Option MatchError :=
  if m.lastCompilationID ≠ m.compilationID then ([], some .staleInvariant)
  else
    let normalized := m.normalizer ⟨pathname, options⟩
    match normalized.options.matchedOutputPathname with
    | some output =>
      match lookupKey output m.matchers.all with
      | none => ([], none)
      | some matchers => firstMatchLoop matchers normalized
    | none =>
      let staticResults :=
        if isDynamicRoute pathname then ([], none)
        else allMatchesLoop m.matchers.static normalized
      match staticResults.2 with
      | some _ => staticResults
      | none =>
        let dynamicResults := allMatchesLoop m.matchers.dynamic normalized
        (staticResults.1 ++ dynamicResults.1, dynamicResults.2)

/-- Embedding of `match(pathname, info)`: the first result of `matchAll`, or
the error the generator throws before its first yield. -/
def DefaultRouteMatcherManager.matchFirst (m : DefaultRouteMatcherManager)
    (pathname : String) (options : MatchOptions) :
    Except MatchError (Option RouteMatch) :=
  match m.matchAll pathname options with
  | (mt :: _, _) => .ok (some mt)
  | ([], some e) => .error e
  | ([], none) => .ok none

/-!
Characterization lemmas: one equation per control path of `forceReload`.
-/

/-- Path equation for `forceReload` when a provider rejects: the snapshot
fields are untouched, the wait promise is rejected with the provider error,
and the `finally` block still records the entry version. -/
theorem forceReload_provider_error (m : DefaultRouteMatcherManager)
    (pushed : List RouteMatcherProvider) (msg : String)
    (hseq : sequenceExcept (m.providers.map (fun p => p.matchers)) = .error msg) :
    m.forceReload pushed =
      { manager := { m with reloadHasBeenCalled := true,
                            providers := m.providers ++ pushed,
                            lastCompilationID := m.providers.length },
        outcome := .error (.providerError msg) } := by
  unfold DefaultRouteMatcherManager.forceReload
  rw [hseq]
  rfl

/-- Path equation for `forceReload` when every provider resolves and the
fresh matcher list is reference-identical to the previous one: only the
duplicates field is refreshed. -/
theorem forceReload_short_circuit (m : DefaultRouteMatcherManager)
    (pushed : List RouteMatcherProvider) (ls : List (List RouteMatcher))
    (hseq : sequenceExcept (m.providers.map (fun p => p.matchers)) = .ok ls)
    (hsame : sameMatchers m.previousMatchers ls.flatten = true) :
    m.forceReload pushed =
      { manager := { m with reloadHasBeenCalled := true,
                            providers := m.providers ++ pushed,
                            matchers := { m.matchers with
                              duplicates := (groupMatcherResults ls.flatten).duplicates },
                            lastCompilationID := m.providers.length },
        outcome := .ok () } := by
  unfold DefaultRouteMatcherManager.forceReload
  rw [hseq]
  simp [hsame, DefaultRouteMatcherManager.compilationID]

/-- Path equation for `forceReload` on a full recompilation (fresh list not
reference-identical to the previous one): all four snapshot fields are
replaced before the final version re-read; the outcome depends on whether
providers were pushed during the await. -/
theorem forceReload_full_compile (m : DefaultRouteMatcherManager)
    (pushed : List RouteMatcherProvider) (ls : List (List RouteMatcher))
    (hseq : sequenceExcept (m.providers.map (fun p => p.matchers)) = .ok ls)
    (hsame : sameMatchers m.previousMatchers ls.flatten = false) :
    m.forceReload pushed =
      { manager := { m with reloadHasBeenCalled := true,
                            providers := m.providers ++ pushed,
                            previousMatchers := ls.flatten,
                            matchers :=
                              { static := ls.flatten.filter (fun matcher => !matcher.isDynamic),
                                dynamic := sortDynamicMatchers
                                  (ls.flatten.filter (fun matcher => matcher.isDynamic)),
                                duplicates := (groupMatcherResults ls.flatten).duplicates,
                                all := (groupMatcherResults ls.flatten).all },
                            lastCompilationID := m.providers.length },
        outcome := if (m.providers ++ pushed).length ≠ m.providers.length then
            .error .invariantViolation
          else .ok () } := by
  unfold DefaultRouteMatcherManager.forceReload
  rw [hseq]
  simp only [hsame, Bool.false_eq_true, if_false, DefaultRouteMatcherManager.compilationID]
  split
  · next h => rfl
  · next h => rfl

/-- Unfold `fetchedMatchers m = some ms` into the underlying provider fetch. -/
theorem fetchedMatchers_eq_some (m : DefaultRouteMatcherManager)
    (ms : List RouteMatcher) (h : fetchedMatchers m = some ms) :
    ∃ ls, sequenceExcept (m.providers.map (fun p => p.matchers)) = .ok ls ∧
      ls.flatten = ms := by
  unfold fetchedMatchers at h
  cases hseq : sequenceExcept (m.providers.map (fun p => p.matchers)) with
  | error msg => rw [hseq] at h; simp [Except.map, Except.toOption] at h
  | ok ls =>
    rw [hseq] at h
    simp [Except.map, Except.toOption] at h
    exact ⟨ls, rfl, h⟩

/-!
Fixtures: concrete matchers, providers and managers used by the witnesses.
-/

/-- Normalizer fixture: passes the pathname through and adds no options. -/
def trivialNormalizer : MatchOptionsInput → NormalizedMatchOptions :=
  fun i => { pathname := i.pathname, options := {} }

/-- Route definition fixture for the pathname `/a`. -/
def sampleDefinition : RouteDefinition :=
  { kind := "APP_PAGE", pathname := "/a", page := "/a/page",
    bundlePath := "app/a/page", filename := "a/page.js", appPaths := ["/a/page"] }

/-- Route match fixture for the pathname `/a`. -/
def sampleMatch : RouteMatch :=
  { definition := sampleDefinition, params := [] }

/-- Static locale-naive matcher fixture that always matches. -/
def sampleMatcher : RouteMatcher :=
  { objId := 1, identity := "/a", isDynamic := false, localeAware := false,
    matchFn := fun _ => some sampleMatch }

/-- Provider fixture resolving with one matcher. -/
def okProvider : RouteMatcherProvider := { matchers := .ok [sampleMatcher] }

/-- Provider fixture resolving with no matchers. -/
def emptyProvider : RouteMatcherProvider := { matchers := .ok [] }

/-- Provider fixture whose fetch rejects. -/
def failingProvider : RouteMatcherProvider := { matchers := .error ("boom") }

/-- Manager fixture holding one registered, never compiled provider. -/
def freshPushManager : DefaultRouteMatcherManager :=
  { providers := [okProvider], normalizer := trivialNormalizer }

/-- Manager fixture in the ready state for its one provider. -/
def readyManager : DefaultRouteMatcherManager :=
  { providers := [okProvider], lastCompilationID := 1, normalizer := trivialNormalizer }

/-- C2: for every manager state whose last compiled version differs from the
current version counter, every `matchAll` call fails immediately with the
staleness invariant error and yields no match, whatever the snapshot holds. -/
theorem matchAll_stale_guard (m : DefaultRouteMatcherManager)
    (pathname : String) (options : MatchOptions)
    (h : m.lastCompilationID ≠ m.compilationID) :
    m.matchAll pathname options = ([], some .staleInvariant) := by
  simp [DefaultRouteMatcherManager.matchAll, h]

/-- Witness for C2: push a provider after a successful reload, then query. -/
theorem matchAll_stale_guard_ex :
    ((((DefaultRouteMatcherManager.push { normalizer := trivialNormalizer }
        [okProvider]).forceReload []).manager.push [emptyProvider]).matchAll
      ("/a") {}) = ([], some .staleInvariant) :=
  matchAll_stale_guard _ ("/a") {} (by decide)

/-- C7: validating a locale-naive matcher when the normalized options carry
locale context whose locale was inferred from the default delegates to
`matcher.match` with the locale-stripped pathname from the locale context
(not the locale-prefixed request pathname). -/
theorem validate_inferred_default_strips_locale (matcher : RouteMatcher)
    (normalized : NormalizedMatchOptions) (info : LocaleInfo)
    (hNaive : matcher.localeAware = false)
    (hInfo : normalized.options.i18n = some info)
    (hInferred : info.inferredFromDefault = true) :
    DefaultRouteMatcherManager.validate matcher normalized =
      .ok (matcher.matchFn (.pathnameOnly info.pathname)) := by
  simp [DefaultRouteMatcherManager.validate, hNaive, hInfo, hInferred]

/-- Route definition fixture for the pathname `/about`. -/
def aboutDefinition : RouteDefinition :=
  { kind := "APP_PAGE", pathname := "/about", page := "/about/page",
    bundlePath := "app/about/page", filename := "about/page.js",
    appPaths := ["/about/page"] }

/-- Route match fixture for the pathname `/about`. -/
def aboutMatch : RouteMatch :=
  { definition := aboutDefinition, params := [] }

/-- Locale-naive matcher fixture that matches exactly the pathname `/about`. -/
def aboutMatcher : RouteMatcher :=
  { objId := 2, identity := "/about", isDynamic := false, localeAware := false,
    matchFn := fun arg =>
      match arg with
      | .pathnameOnly p => if p = "/about" then some aboutMatch else none
      | _ => none }

/-- Locale context fixture: locale `en` inferred from the default, with the
locale-stripped pathname `/about`. -/
def inferredEnInfo : LocaleInfo :=
  { locale := "en", inferredFromDefault := true, pathname := "/about" }

/-- Normalized options fixture for the request pathname `/en/about` carrying
the inferred-default locale context. -/
def inferredEnOptions : NormalizedMatchOptions :=
  { pathname := "/en/about", options := { i18n := some inferredEnInfo } }

/-- Witness for C7: `/en/about` with inferred default locale `en` matches the
locale-naive matcher for `/about` via the stripped pathname. -/
theorem validate_inferred_default_strips_locale_ex :
    DefaultRouteMatcherManager.validate aboutMatcher inferredEnOptions =
      .ok (some aboutMatch) := by
  rw [validate_inferred_default_strips_locale aboutMatcher inferredEnOptions
    inferredEnInfo rfl rfl rfl]
  rfl

/-- C8: validating a locale-aware matcher without locale context throws the
locale invariant error rather than returning a no-match; with locale context
present the matcher is matched against that locale context. -/
theorem validate_locale_contract (matcher : RouteMatcher)
    (hAware : matcher.localeAware = true) :
    (∀ normalized : NormalizedMatchOptions, normalized.options.i18n = none →
      DefaultRouteMatcherManager.validate matcher normalized =
        .error .localeInvariant)
    ∧ (∀ (normalized : NormalizedMatchOptions) (info : LocaleInfo),
        normalized.options.i18n = some info →
        DefaultRouteMatcherManager.validate matcher normalized =
          .ok (matcher.matchFn (.i18n info))) := by
  constructor
  · intro normalized h
    simp [DefaultRouteMatcherManager.validate, hAware, h]
  · intro normalized info h
    simp [DefaultRouteMatcherManager.validate, hAware, h]

/-- Locale-aware matcher fixture. -/
def localeMatcher : RouteMatcher :=
  { objId := 3, identity := "/about", isDynamic := false, localeAware := true,
    matchFn := fun arg =>
      match arg with
      | .i18n _ => some aboutMatch
      | _ => none }

/-- Normalized options fixture with no locale context. -/
def noLocaleOptions : NormalizedMatchOptions :=
  { pathname := "/about", options := {} }

/-- Witness for C8: the locale-aware matcher errors without locale context and
matches against the locale context when it is present. -/
theorem validate_locale_contract_ex :
    DefaultRouteMatcherManager.validate localeMatcher noLocaleOptions =
      .error .localeInvariant
    ∧ DefaultRouteMatcherManager.validate localeMatcher inferredEnOptions =
      .ok (some aboutMatch) :=
  ⟨(validate_locale_contract localeMatcher rfl).1 noLocaleOptions rfl,
   (validate_locale_contract localeMatcher rfl).2 inferredEnOptions inferredEnInfo rfl⟩

/-- C1 counterexample: the claim "a failed recompilation never partially
updates the snapshot — all four fields are left exactly as before the call"
is false on the code.  At this concrete input the reload fails with the
version-counter invariant violation, yet the static set has changed from
empty to the newly compiled one (the snapshot is replaced before the check). -/
theorem forceReload_failed_reload_changes_snapshot :
    (readyManager.forceReload [emptyProvider]).outcome = .error .invariantViolation
    ∧ readyManager.matchers.static = []
    ∧ (readyManager.forceReload [emptyProvider]).manager.matchers.static =
        [sampleMatcher] :=
  ⟨rfl, rfl, rfl⟩

/-- C1 amended: a forceReload that fails because a provider rejected leaves
all four snapshot fields exactly as they were before the call; a forceReload
that fails the version-counter check has already replaced all four snapshot
fields with the values compiled from the fetched matcher list — the failure
does not restore the prior snapshot. -/
theorem forceReload_failure_snapshot (m : DefaultRouteMatcherManager)
    (pushed : List RouteMatcherProvider) (e : ReloadError)
    (h : (m.forceReload pushed).outcome = .error e) :
    (∃ msg, e = .providerError msg ∧
      (m.forceReload pushed).manager.matchers = m.matchers)
    ∨ (e = .invariantViolation ∧ ∃ ms, fetchedMatchers m = some ms ∧
        (m.forceReload pushed).manager.matchers =
          { static := ms.filter (fun matcher => !matcher.isDynamic),
            dynamic := sortDynamicMatchers (ms.filter (fun matcher => matcher.isDynamic)),
            duplicates := (groupMatcherResults ms).duplicates,
            all := (groupMatcherResults ms).all }) := by
  cases hseq : sequenceExcept (m.providers.map (fun p => p.matchers)) with
  | error msg =>
    rw [forceReload_provider_error m pushed msg hseq] at h ⊢
    injection h with h2
    left
    exact ⟨msg, h2.symm, rfl⟩
  | ok ls =>
    cases hsame : sameMatchers m.previousMatchers ls.flatten with
    | true =>
      rw [forceReload_short_circuit m pushed ls hseq hsame] at h
      simp at h
    | false =>
      rw [forceReload_full_compile m pushed ls hseq hsame] at h ⊢
      by_cases hlen : (m.providers ++ pushed).length ≠ m.providers.length
      · rw [if_pos hlen] at h
        injection h with h2
        right
        refine ⟨h2.symm, ls.flatten, ?_, rfl⟩
        unfold fetchedMatchers
        rw [hseq]
        rfl
      · rw [if_neg hlen] at h
        simp at h

/-- Manager fixture whose single provider rejects. -/
def failingManager : DefaultRouteMatcherManager :=
  { providers := [failingProvider], lastCompilationID := 1,
    normalizer := trivialNormalizer }

/-- Witness for the amended C1: the provider-failure case at a concrete
input leaves the snapshot untouched. -/
theorem forceReload_failure_snapshot_ex :
    (∃ msg, ReloadError.providerError ("boom") = .providerError msg ∧
      (failingManager.forceReload []).manager.matchers = failingManager.matchers)
    ∨ (ReloadError.providerError ("boom") = .invariantViolation ∧
        ∃ ms, fetchedMatchers failingManager = some ms ∧
        (failingManager.forceReload []).manager.matchers =
          { static := ms.filter (fun matcher => !matcher.isDynamic),
            dynamic := sortDynamicMatchers (ms.filter (fun matcher => matcher.isDynamic)),
            duplicates := (groupMatcherResults ms).duplicates,
            all := (groupMatcherResults ms).all }) :=
  forceReload_failure_snapshot failingManager [] (.providerError ("boom")) rfl

/-- C3 at its failing input (code bug): one provider is registered and never
compiled (`lastCompilationID = 0`), and a second provider is pushed while the
reload awaits the provider fetch.  The version-counter check does throw the
invariant violation — but it only rejects the wait promise while the
`forceReload` call itself resolves, and the `finally` block still advances
`lastCompilationID` from 0 to 1, the stale run's entry version, despite the
failure (its comment assumes the compilation ID matched). -/
theorem forceReload_version_race_finally :
    (freshPushManager.forceReload [emptyProvider]).outcome =
      .error .invariantViolation
    ∧ freshPushManager.lastCompilationID = 0
    ∧ (freshPushManager.forceReload [emptyProvider]).manager.lastCompilationID = 1
    ∧ (freshPushManager.forceReload [emptyProvider]).manager.compilationID = 2 :=
  ⟨rfl, rfl, rfl, rfl⟩

/-- C6: when the freshly fetched matcher list is reference-identical,
element by element and in order, to the previous reload's list, the
snapshot's static and dynamic fields are left unchanged while the duplicates
field is still replaced with the newly computed duplicates map. -/
theorem forceReload_short_circuit_frame (m : DefaultRouteMatcherManager)
    (pushed : List RouteMatcherProvider) (ms : List RouteMatcher)
    (hfetch : fetchedMatchers m = some ms)
    (hsame : sameMatchers m.previousMatchers ms = true) :
    (m.forceReload pushed).manager.matchers.static = m.matchers.static
    ∧ (m.forceReload pushed).manager.matchers.dynamic = m.matchers.dynamic
    ∧ (m.forceReload pushed).manager.matchers.duplicates =
        (groupMatcherResults ms).duplicates := by
  obtain ⟨ls, hseq, hms⟩ := fetchedMatchers_eq_some m ms hfetch
  subst hms
  rw [forceReload_short_circuit m pushed ls hseq hsame]
  exact ⟨rfl, rfl, rfl⟩

/-- Manager fixture whose previous reload produced exactly the matcher list
its provider still returns. -/
def cachedManager : DefaultRouteMatcherManager :=
  { providers := [okProvider], lastCompilationID := 1,
    previousMatchers := [sampleMatcher],
    matchers := ⟨[sampleMatcher], [], [], [("/a", [sampleMatcher])]⟩,
    normalizer := trivialNormalizer }

/-- Witness for C6 at a concrete manager. -/
theorem forceReload_short_circuit_frame_ex :
    (cachedManager.forceReload []).manager.matchers.static =
      cachedManager.matchers.static
    ∧ (cachedManager.forceReload []).manager.matchers.dynamic =
      cachedManager.matchers.dynamic
    ∧ (cachedManager.forceReload []).manager.matchers.duplicates =
      (groupMatcherResults [sampleMatcher]).duplicates :=
  forceReload_short_circuit_frame cachedManager [] [sampleMatcher] rfl (by decide)

/-- True when `validate` returns without throwing. -/
def validateOk (matcher : RouteMatcher) (normalized : NormalizedMatchOptions) : Bool :=
  match DefaultRouteMatcherManager.validate matcher normalized with
  | .ok _ => true
  | .error _ => false

/-- Matches the validate step yields for the matchers of a list, in list
order, skipping the unsuccessful ones. -/
def successes (matchers : List RouteMatcher) (normalized : NormalizedMatchOptions) :
    List RouteMatch :=
  matchers.filterMap (fun matcher =>
    match DefaultRouteMatcherManager.validate matcher normalized with
    | .ok r => r
    | .error _ => none)

/-- The exact-output loop yields at most one match. -/
theorem firstMatchLoop_length (matchers : List RouteMatcher)
    (normalized : NormalizedMatchOptions) :
    (firstMatchLoop matchers normalized).1.length ≤ 1 := by
  induction matchers with
  | nil => simp [firstMatchLoop]
  | cons a rest ih =>
    simp only [firstMatchLoop]
    cases DefaultRouteMatcherManager.validate a normalized with
    | error e => simp
    | ok r => cases r with
      | none => exact ih
      | some mt => simp

/-- When no validate error occurs, the exact-output loop yields exactly the
first success in stored order. -/
theorem firstMatchLoop_of_ok (matchers : List RouteMatcher)
    (normalized : NormalizedMatchOptions)
    (h : ∀ matcher ∈ matchers, validateOk matcher normalized = true) :
    firstMatchLoop matchers normalized =
      ((successes matchers normalized).take 1, none) := by
  induction matchers with
  | nil => rfl
  | cons a rest ih =>
    have ha := h a (List.mem_cons_self a rest)
    cases hv : DefaultRouteMatcherManager.validate a normalized with
    | error e => rw [validateOk, hv] at ha; simp at ha
    | ok r =>
      cases r with
      | none =>
        simp only [firstMatchLoop, successes, List.filterMap_cons, hv]
        exact ih (fun matcher hm => h matcher (List.mem_cons_of_mem a hm))
      | some mt => simp [firstMatchLoop, successes, hv]

/-- When no validate error occurs, the scan loop yields every success in
stored order. -/
theorem allMatchesLoop_of_ok (matchers : List RouteMatcher)
    (normalized : NormalizedMatchOptions)
    (h : ∀ matcher ∈ matchers, validateOk matcher normalized = true) :
    allMatchesLoop matchers normalized = (successes matchers normalized, none) := by
  induction matchers with
  | nil => rfl
  | cons a rest ih =>
    have ha := h a (List.mem_cons_self a rest)
    have hrest := ih (fun matcher hm => h matcher (List.mem_cons_of_mem a hm))
    cases hv : DefaultRouteMatcherManager.validate a normalized with
    | error e => rw [validateOk, hv] at ha; simp at ha
    | ok r =>
      cases r with
      | none => simp only [allMatchesLoop, successes, List.filterMap_cons, hv]; exact hrest
      | some mt => simp [allMatchesLoop, successes, hv, hrest]

/-- C5: for a query whose normalized options name an explicit output
pathname, the result is produced only from the all-map entry for that
pathname (replacing the static and dynamic sets cannot change it, even when
the entry is absent or matches nothing); it holds at most one match; and
when no validate error occurs it is exactly the first success of the entry
iterated in stored order. -/
theorem matchAll_exact_output (m : DefaultRouteMatcherManager)
    (pathname : String) (options : MatchOptions) (output : String)
    (hfresh : m.lastCompilationID = m.compilationID)
    (hout : (m.normalizer ⟨pathname, options⟩).options.matchedOutputPathname =
      some output) :
    (∀ s d, DefaultRouteMatcherManager.matchAll
        { m with matchers := { m.matchers with static := s, dynamic := d } }
        pathname options
      = m.matchAll pathname options)
    ∧ (m.matchAll pathname options).1.length ≤ 1
    ∧ ((∀ matcher ∈ (lookupKey output m.matchers.all).getD [],
          validateOk matcher (m.normalizer ⟨pathname, options⟩) = true) →
        m.matchAll pathname options =
          ((successes ((lookupKey output m.matchers.all).getD [])
              (m.normalizer ⟨pathname, options⟩)).take 1, none)) := by
  have hg : ¬(m.lastCompilationID ≠ m.compilationID) := by simp [hfresh]
  refine ⟨?_, ?_, ?_⟩
  · intro s d
    simp [DefaultRouteMatcherManager.matchAll,
      DefaultRouteMatcherManager.compilationID, hfresh, hout]
  · simp only [DefaultRouteMatcherManager.matchAll, if_neg hg, hout]
    cases hlk : lookupKey output m.matchers.all with
    | none => simp
    | some entry => exact firstMatchLoop_length entry _
  · intro hok
    simp only [DefaultRouteMatcherManager.matchAll, if_neg hg, hout]
    cases hlk : lookupKey output m.matchers.all with
    | none => simp [successes]
    | some entry =>
      have h2 := firstMatchLoop_of_ok entry (m.normalizer ⟨pathname, options⟩)
        (by simpa [hlk] using hok)
      simpa using h2

/-- Matcher fixture for the pathname `/p` that never matches. -/
def noMatchMatcher : RouteMatcher :=
  { objId := 4, identity := "/p", isDynamic := false, localeAware := false,
    matchFn := fun _ => none }

/-- Matcher fixture for the pathname `/p` that always matches. -/
def pMatcher : RouteMatcher :=
  { objId := 5, identity := "/p", isDynamic := false, localeAware := false,
    matchFn := fun _ => some sampleMatch }

/-- Normalizer fixture that requests the exact output pathname `/p`. -/
def outputNormalizer : MatchOptionsInput → NormalizedMatchOptions :=
  fun i => { pathname := i.pathname,
             options := { matchedOutputPathname := some ("/p") } }

/-- Manager fixture whose all-map holds two matchers for `/p`. -/
def exactOutputManager : DefaultRouteMatcherManager :=
  { providers := [],
    matchers := ⟨[], [], [], [("/p", [noMatchMatcher, pMatcher])]⟩,
    lastCompilationID := 0, normalizer := outputNormalizer }

/-- Witness for C5: the exact-output query returns the first matching entry
matcher only, never consulting static or dynamic sets. -/
theorem matchAll_exact_output_ex :
    DefaultRouteMatcherManager.matchAll
        { exactOutputManager with matchers :=
          { exactOutputManager.matchers with
            static := [sampleMatcher], dynamic := [sampleMatcher] } } ("/p") {}
      = exactOutputManager.matchAll ("/p") {}
    ∧ (exactOutputManager.matchAll ("/p") {}).1.length ≤ 1
    ∧ exactOutputManager.matchAll ("/p") {} =
        ((successes ((lookupKey ("/p") exactOutputManager.matchers.all).getD [])
            (exactOutputManager.normalizer ⟨"/p", {}⟩)).take 1, none) :=
  ⟨(matchAll_exact_output exactOutputManager ("/p") {} ("/p") rfl rfl).1
      [sampleMatcher] [sampleMatcher],
   (matchAll_exact_output exactOutputManager ("/p") {} ("/p") rfl rfl).2.1,
   (matchAll_exact_output exactOutputManager ("/p") {} ("/p") rfl rfl).2.2 (by decide)⟩

/-- C9: for a query without an explicit output pathname and whose validate
steps do not throw: when the queried pathname is not itself a dynamic route
pattern, the yielded sequence is every static-set success followed by every
dynamic-set success in stored order; when the queried pathname is itself a
dynamic route pattern, the static set is skipped (replacing it cannot change
the result) and only dynamic successes are yielded. -/
theorem matchAll_scan_order (m : DefaultRouteMatcherManager)
    (pathname : String) (options : MatchOptions)
    (hfresh : m.lastCompilationID = m.compilationID)
    (hout : (m.normalizer ⟨pathname, options⟩).options.matchedOutputPathname = none)
    (hok : ∀ matcher ∈ m.matchers.static ++ m.matchers.dynamic,
      validateOk matcher (m.normalizer ⟨pathname, options⟩) = true) :
    m.matchAll pathname options =
      ((if isDynamicRoute pathname then []
        else successes m.matchers.static (m.normalizer ⟨pathname, options⟩))
        ++ successes m.matchers.dynamic (m.normalizer ⟨pathname, options⟩), none)
    ∧ (isDynamicRoute pathname = true →
        ∀ s, DefaultRouteMatcherManager.matchAll
            { m with matchers := { m.matchers with static := s } } pathname options
          = m.matchAll pathname options) := by
  have hg : ¬(m.lastCompilationID ≠ m.compilationID) := by simp [hfresh]
  have hs : ∀ matcher ∈ m.matchers.static,
      validateOk matcher (m.normalizer ⟨pathname, options⟩) = true :=
    fun matcher hm => hok matcher (List.mem_append_left _ hm)
  have hd : ∀ matcher ∈ m.matchers.dynamic,
      validateOk matcher (m.normalizer ⟨pathname, options⟩) = true :=
    fun matcher hm => hok matcher (List.mem_append_right _ hm)
  constructor
  · simp only [DefaultRouteMatcherManager.matchAll, if_neg hg, hout]
    cases hdyn : isDynamicRoute pathname with
    | true => simp [hdyn, allMatchesLoop_of_ok _ _ hd]
    | false => simp [hdyn, allMatchesLoop_of_ok _ _ hs, allMatchesLoop_of_ok _ _ hd]
  · intro hdyn s
    simp [DefaultRouteMatcherManager.matchAll,
      DefaultRouteMatcherManager.compilationID, hfresh, hout, hdyn]

/-- Static matcher fixture for the scan-order witness. -/
def staticScanMatcher : RouteMatcher :=
  { objId := 6, identity := "/a", isDynamic := false, localeAware := false,
    matchFn := fun _ => some sampleMatch }

/-- Dynamic matcher fixture for the scan-order witness. -/
def dynScanMatcher : RouteMatcher :=
  { objId := 7, identity := "/d/[x]", isDynamic := true, localeAware := false,
    matchFn := fun _ => some aboutMatch }

/-- Manager fixture holding one static and one dynamic matcher. -/
def scanManager : DefaultRouteMatcherManager :=
  { providers := [],
    matchers := ⟨[staticScanMatcher], [dynScanMatcher], [], []⟩,
    lastCompilationID := 0, normalizer := trivialNormalizer }

/-- Witness for C9: for the static pathname `/a`, every static success comes
before every dynamic success. -/
theorem matchAll_scan_order_ex :
    scanManager.matchAll ("/a") {} =
      ((if isDynamicRoute ("/a") then []
        else successes scanManager.matchers.static
          (scanManager.normalizer ⟨"/a", {}⟩))
        ++ successes scanManager.matchers.dynamic
          (scanManager.normalizer ⟨"/a", {}⟩), none) :=
  (matchAll_scan_order scanManager ("/a") {} rfl rfl (by decide)).1

/-!
Determinism of the app-path collector (C4): lemmas characterizing the state
reached by a sequence of pushes.
-/

/-- Pages pushed for the key `k`, in push order. -/
def pagesFor (k : String) (ps : List (String × String)) : List String :=
  ps.filterMap (fun pg => if pg.1 = k then some pg.2 else none)

/-- Append pages onto an optional stored list, materializing it when pages
arrive for an absent key. -/
def optAppend (o : Option (List String)) (extra : List String) : Option (List String) :=
  match o, extra with
  | some l, extra => some (l ++ extra)
  | none, [] => none
  | none, extra => some extra

theorem optAppend_nil (o : Option (List String)) : optAppend o [] = o := by
  cases o <;> simp [optAppend]

theorem optAppend_assoc (o : Option (List String)) (a b : List String) :
    optAppend (optAppend o a) b = optAppend o (a ++ b) := by
  cases o with
  | some l => simp [optAppend]
  | none => cases a with
    | nil => simp [optAppend]
    | cons x xs => simp [optAppend]

theorem lookupKey_updateEntry_ne {β : Type} (k k' : String) (v : β)
    (l : List (String × β)) (h : k ≠ k') :
    lookupKey k (updateEntry k' v l) = lookupKey k l := by
  induction l with
  | nil => rfl
  | cons e rest ih =>
    obtain ⟨a, b⟩ := e
    by_cases ha : a = k'
    · subst ha
      simp [updateEntry, lookupKey, h]
    · simp [updateEntry, lookupKey, ha]
      split <;> simp [ih]

theorem lookupKey_updateEntry_self {β : Type} (k : String) (v w : β)
    (l : List (String × β)) (h : lookupKey k l = some w) :
    lookupKey k (updateEntry k v l) = some v := by
  induction l with
  | nil => simp [lookupKey] at h
  | cons e rest ih =>
    obtain ⟨a, b⟩ := e
    by_cases ha : k = a
    · subst ha
      simp [updateEntry, lookupKey]
    · rw [lookupKey] at h
      rw [if_neg ha] at h
      have hne : a ≠ k := fun hh => ha hh.symm
      simp [updateEntry, lookupKey, hne, ha]
      exact ih h

theorem lookupKey_append_single {β : Type} (k p : String) (v : β)
    (l : List (String × β)) :
    lookupKey k (l ++ [(p, v)]) =
      match lookupKey k l with
      | some w => some w
      | none => if k = p then some v else none := by
  induction l with
  | nil => simp [lookupKey]
  | cons e rest ih =>
    obtain ⟨a, b⟩ := e
    by_cases ha : k = a
    · simp [lookupKey, ha]
    · simp [lookupKey, ha, ih]

theorem keys_updateEntry {β : Type} (k : String) (v : β) (l : List (String × β)) :
    (updateEntry k v l).map Prod.fst = l.map Prod.fst := by
  induction l with
  | nil => rfl
  | cons e rest ih =>
    obtain ⟨a, b⟩ := e
    by_cases ha : a = k <;> simp [updateEntry, ha, ih]

theorem lookupKey_eq_none_iff {β : Type} (k : String) (l : List (String × β)) :
    lookupKey k l = none ↔ k ∉ l.map Prod.fst := by
  induction l with
  | nil => simp [lookupKey]
  | cons e rest ih =>
    obtain ⟨a, b⟩ := e
    by_cases ha : k = a
    · subst ha
      simp [lookupKey]
    · simp [lookupKey, ha, ih]

theorem lookupKey_isSome_iff {β : Type} (k : String) (l : List (String × β)) :
    (lookupKey k l).isSome = true ↔ k ∈ l.map Prod.fst := by
  rw [← Decidable.not_iff_not, ← lookupKey_eq_none_iff]
  cases lookupKey k l <;> simp

/-- One push, seen through `lookupKey`. -/
theorem lookupKey_push (c : AppPathsCollector) (p g k : String) :
    lookupKey k (c.push p g).2.appPaths =
      optAppend (lookupKey k c.appPaths) (if p = k then [g] else []) := by
  unfold AppPathsCollector.push
  cases hl : lookupKey p c.appPaths with
  | some l =>
    by_cases hk : k = p
    · subst hk
      rw [lookupKey_updateEntry_self k (l ++ [g]) l _ hl]
      simp [hl, optAppend]
    · have : p ≠ k := fun hh => hk hh.symm
      simp only [this, if_false]
      rw [lookupKey_updateEntry_ne k p _ _ hk]
      simp [optAppend_nil]
  | none =>
    by_cases hk : k = p
    · subst hk
      rw [lookupKey_append_single]
      rw [hl]
      simp [optAppend]
    · have hpk : p ≠ k := fun hh => hk hh.symm
      rw [lookupKey_append_single]
      simp only [hpk, if_false, hk, optAppend_nil]
      cases lookupKey k c.appPaths <;> rfl

theorem pagesFor_cons (k p g : String) (rest : List (String × String)) :
    pagesFor k ((p, g) :: rest) =
      (if p = k then [g] else []) ++ pagesFor k rest := by
  by_cases hp : p = k <;> simp [pagesFor, hp]

/-- The state reached by a push sequence, seen through `lookupKey`. -/
theorem lookupKey_pushAll (ps : List (String × String)) (c : AppPathsCollector)
    (k : String) :
    lookupKey k (AppPathsCollector.pushAll c ps).appPaths =
      optAppend (lookupKey k c.appPaths) (pagesFor k ps) := by
  induction ps generalizing c with
  | nil => simp [AppPathsCollector.pushAll, pagesFor, optAppend_nil]
  | cons pg rest ih =>
    obtain ⟨p, g⟩ := pg
    rw [AppPathsCollector.pushAll, ih, lookupKey_push, optAppend_assoc, pagesFor_cons]

/-- Keys of the collector map, in insertion order. -/
def keysOf (c : AppPathsCollector) : List String :=
  c.appPaths.map Prod.fst

theorem keysOf_push (c : AppPathsCollector) (p g : String) :
    keysOf (c.push p g).2 =
      if (lookupKey p c.appPaths).isSome then keysOf c else keysOf c ++ [p] := by
  unfold AppPathsCollector.push keysOf
  cases hl : lookupKey p c.appPaths with
  | some l => simp [keys_updateEntry]
  | none => simp

theorem keysOf_pushAll_nodup (ps : List (String × String)) (c : AppPathsCollector)
    (h : (keysOf c).Nodup) : (keysOf (AppPathsCollector.pushAll c ps)).Nodup := by
  induction ps generalizing c with
  | nil => exact h
  | cons pg rest ih =>
    obtain ⟨p, g⟩ := pg
    rw [AppPathsCollector.pushAll]
    refine ih _ ?_
    rw [keysOf_push]
    cases hl : lookupKey p c.appPaths with
    | some l => simpa using h
    | none =>
      have hp : p ∉ keysOf c := (lookupKey_eq_none_iff p c.appPaths).1 hl
      simp [List.nodup_append, h, hp]

theorem mem_keysOf_iff (c : AppPathsCollector) (k : String) :
    k ∈ keysOf c ↔ (lookupKey k c.appPaths).isSome = true :=
  (lookupKey_isSome_iff k c.appPaths).symm

theorem mem_keysOf_pushAll (ps : List (String × String)) (k : String) :
    k ∈ keysOf (AppPathsCollector.pushAll ⟨[]⟩ ps) ↔ pagesFor k ps ≠ [] := by
  rw [mem_keysOf_iff, lookupKey_pushAll]
  cases hp : pagesFor k ps with
  | nil => simp [lookupKey, optAppend]
  | cons x xs => simp [lookupKey, optAppend]

theorem keysOf_pushAll_perm (ps qs : List (String × String)) (h : ps.Perm qs) :
    (keysOf (AppPathsCollector.pushAll ⟨[]⟩ ps)).Perm
      (keysOf (AppPathsCollector.pushAll ⟨[]⟩ qs)) := by
  have h1 := keysOf_pushAll_nodup ps ⟨[]⟩ (by simp [keysOf])
  have h2 := keysOf_pushAll_nodup qs ⟨[]⟩ (by simp [keysOf])
  rw [List.perm_ext_iff_of_nodup h1 h2]
  intro a
  rw [mem_keysOf_pushAll, mem_keysOf_pushAll]
  have hperm : (pagesFor a ps).Perm (pagesFor a qs) := h.filterMap _
  constructor
  · intro hne hq
    exact hne (List.Perm.eq_nil (hq ▸ hperm))
  · intro hne hp
    exact hne (List.Perm.eq_nil (hp ▸ hperm.symm))

/-- Sorting with a total antisymmetric order is permutation-invariant. -/
theorem sortStrings_eq_of_perm (l₁ l₂ : List String) (h : l₁.Perm l₂) :
    sortStrings l₁ = sortStrings l₂ :=
  List.eq_of_perm_of_sorted
    ((List.perm_insertionSort _ l₁).trans (h.trans (List.perm_insertionSort _ l₂).symm))
    (List.sorted_insertionSort _ l₁) (List.sorted_insertionSort _ l₂)

/-- What `get` returns on the state reached by a push sequence. -/
theorem get_pushAll (ps : List (String × String)) (k : String) :
    (AppPathsCollector.pushAll ⟨[]⟩ ps).get k =
      (if pagesFor k ps = [] then none
       else some { page := (sortStrings (pagesFor k ps)).getLastD (""),
                   pathname := k,
                   appPaths := sortStrings (pagesFor k ps) }) := by
  unfold AppPathsCollector.get
  rw [lookupKey_pushAll]
  cases hp : pagesFor k ps with
  | nil => simp [lookupKey, optAppend]
  | cons x xs => simp [lookupKey, optAppend]

/-- Everything `get` returns satisfies the per-aggregate invariants. -/
theorem get_spec (c : AppPathsCollector) (k : String) (e : AppPaths)
    (h : c.get k = some e) :
    e.pathname = k ∧ e.appPaths.Sorted (· ≤ ·) ∧ e.page = e.appPaths.getLastD ("") := by
  unfold AppPathsCollector.get at h
  cases hl : lookupKey k c.appPaths with
  | none => rw [hl] at h; simp at h
  | some l =>
    rw [hl] at h
    simp only [Option.some_inj] at h
    subst h
    exact ⟨rfl, List.sorted_insertionSort _ _, rfl⟩

/-- The pathnames of the aggregates are a sublist of the iterated keys. -/
theorem map_pathname_filterMap_sublist (c : AppPathsCollector) (l : List String) :
    ((l.filterMap (fun k => c.get k)).map (fun e => e.pathname)).Sublist l := by
  induction l with
  | nil => simp
  | cons a rest ih =>
    rw [List.filterMap_cons]
    cases hg : c.get a with
    | none => exact ih.cons a
    | some e =>
      have he := (get_spec c a e hg).1
      simpa [he] using ih.cons₂ a

/-- C4: for a fixed multiset of (pathname, page) pairs, `toSortedArray`
returns the same value regardless of push order; its aggregates are ordered
lexicographically by pathname; and each aggregate's appPaths list is sorted
with `page` equal to the last element of the sorted list. -/
theorem toSortedArray_deterministic (ps qs : List (String × String))
    (h : ps.Perm qs) :
    (AppPathsCollector.pushAll ⟨[]⟩ ps).toSortedArray =
      (AppPathsCollector.pushAll ⟨[]⟩ qs).toSortedArray
    ∧ (((AppPathsCollector.pushAll ⟨[]⟩ ps).toSortedArray.map
        (fun e => e.pathname)).Sorted (· ≤ ·))
    ∧ ∀ e ∈ (AppPathsCollector.pushAll ⟨[]⟩ ps).toSortedArray,
        e.appPaths.Sorted (· ≤ ·) ∧ e.page = e.appPaths.getLastD ("") := by
  refine ⟨?_, ?_, ?_⟩
  · unfold AppPathsCollector.toSortedArray
    have hkeys : (AppPathsCollector.pushAll ⟨[]⟩ ps).pathnames =
        (AppPathsCollector.pushAll ⟨[]⟩ qs).pathnames :=
      sortStrings_eq_of_perm _ _ (keysOf_pushAll_perm ps qs h)
    rw [hkeys]
    apply List.filterMap_congr
    intro k hk
    rw [get_pushAll, get_pushAll]
    have hperm : (pagesFor k ps).Perm (pagesFor k qs) := h.filterMap _
    by_cases hnil : pagesFor k ps = []
    · have hnil2 : pagesFor k qs = [] := List.Perm.eq_nil (hnil ▸ hperm).symm
      simp [hnil, hnil2]
    · have hnil2 : pagesFor k qs ≠ [] :=
        fun hq => hnil (List.Perm.eq_nil (hq ▸ hperm))
      rw [if_neg hnil, if_neg hnil2, sortStrings_eq_of_perm _ _ hperm]
  · exact List.Pairwise.sublist (map_pathname_filterMap_sublist _ _)
      (List.sorted_insertionSort _ _)
  · intro e he
    unfold AppPathsCollector.toSortedArray at he
    obtain ⟨k, hk, hget⟩ := List.mem_filterMap.1 he
    exact ⟨(get_spec _ k e hget).2.1, (get_spec _ k e hget).2.2⟩

/-- Witness for C4: pushing ("/p","b") then ("/p","a") gives the same sorted
output as pushing them in the opposite order. -/
theorem toSortedArray_deterministic_ex :
    (AppPathsCollector.pushAll ⟨[]⟩ [("/p", "b"), ("/p", "a")]).toSortedArray =
      (AppPathsCollector.pushAll ⟨[]⟩ [("/p", "a"), ("/p", "b")]).toSortedArray :=
  (toSortedArray_deterministic [("/p", "b"), ("/p", "a")]
    [("/p", "a"), ("/p", "b")] (List.Perm.swap ("/p", "a") ("/p", "b") [])).1

/-!
Observational equivalence of AppPathsRoutes and AppPathsCollector (C10):
the routes object keeps each stored list sorted eagerly (on every add),
the collector sorts a copy lazily (on every get).  Simulation relation:
entry for entry, the routes map stores the sorted collector list.
-/

/-- Simulation relation between a collector state and a routes state. -/
def routesSim (c : AppPathsCollector) (r : AppPathsRoutes) : Prop :=
  r.appPaths = c.appPaths.map (fun e => (e.1, sortStrings e.2))

theorem lookupKey_map_sort (k : String) (l : List (String × List String)) :
    lookupKey k (l.map (fun e => (e.1, sortStrings e.2))) =
      (lookupKey k l).map sortStrings := by
  induction l with
  | nil => rfl
  | cons e rest ih =>
    obtain ⟨a, b⟩ := e
    by_cases ha : k = a <;> simp [lookupKey, ha, ih]

theorem updateEntry_map_sort (k : String) (v : List String)
    (l : List (String × List String)) :
    updateEntry k (sortStrings v) (l.map (fun e => (e.1, sortStrings e.2))) =
      (updateEntry k v l).map (fun e => (e.1, sortStrings e.2)) := by
  induction l with
  | nil => rfl
  | cons e rest ih =>
    obtain ⟨a, b⟩ := e
    by_cases ha : a = k <;> simp [updateEntry, ha, ih]

theorem sortStrings_sortStrings_append (l : List String) (g : String) :
    sortStrings (sortStrings l ++ [g]) = sortStrings (l ++ [g]) :=
  List.eq_of_perm_of_sorted
    ((List.perm_insertionSort _ _).trans
      (((List.perm_insertionSort (α := String) (· ≤ ·) l).append_right [g]).trans
        (List.perm_insertionSort _ (l ++ [g])).symm))
    (List.sorted_insertionSort _ _) (List.sorted_insertionSort _ _)

theorem sortStrings_singleton (g : String) : sortStrings [g] = [g] := rfl

/-- One step of the simulation: `add` and `push` return the same count and
re-establish the relation. -/
theorem add_sim (c : AppPathsCollector) (r : AppPathsRoutes) (p g : String)
    (hsim : routesSim c r) :
    (r.add p g).1 = (c.push p g).1 ∧ routesSim (c.push p g).2 (r.add p g).2 := by
  unfold routesSim at hsim ⊢
  unfold AppPathsRoutes.add AppPathsCollector.push
  rw [hsim, lookupKey_map_sort]
  cases hl : lookupKey p c.appPaths with
  | none =>
    refine ⟨rfl, ?_⟩
    simp [sortStrings_singleton]
  | some l =>
    constructor
    · show (sortStrings (sortStrings l ++ [g])).length = l.length + 1
      rw [sortStrings_sortStrings_append]
      simp [sortStrings, List.length_insertionSort]
    · show updateEntry p (sortStrings (sortStrings l ++ [g]))
          (c.appPaths.map (fun e => (e.1, sortStrings e.2))) =
        (updateEntry p (l ++ [g]) c.appPaths).map (fun e => (e.1, sortStrings e.2))
      rw [sortStrings_sortStrings_append]
      exact updateEntry_map_sort p (l ++ [g]) c.appPaths

/-- The whole insertion sequence: identical count traces and related final
states. -/
theorem addTrace_sim (ps : List (String × String)) :
    ∀ (c : AppPathsCollector) (r : AppPathsRoutes), routesSim c r →
      (AppPathsRoutes.addTrace r ps).1 = (AppPathsCollector.pushTrace c ps).1 ∧
      routesSim (AppPathsCollector.pushTrace c ps).2 (AppPathsRoutes.addTrace r ps).2 := by
  induction ps with
  | nil => intro c r hsim; exact ⟨rfl, hsim⟩
  | cons pg rest ih =>
    intro c r hsim
    obtain ⟨p, g⟩ := pg
    obtain ⟨hcount, hsim2⟩ := add_sim c r p g hsim
    obtain ⟨ht, hs⟩ := ih (c.push p g).2 (r.add p g).2 hsim2
    simp only [AppPathsRoutes.addTrace, AppPathsCollector.pushTrace]
    exact ⟨by rw [hcount, ht], hs⟩

/-- Related states have equal sorted output. -/
theorem toSortedArray_sim (c : AppPathsCollector) (r : AppPathsRoutes)
    (hsim : routesSim c r) : r.toSortedArray = c.toSortedArray := by
  have hsim' := hsim
  unfold routesSim at hsim'
  unfold AppPathsRoutes.toSortedArray AppPathsCollector.toSortedArray
  have hkeys : r.pathnames = c.pathnames := by
    unfold AppPathsRoutes.pathnames AppPathsCollector.pathnames
    rw [hsim']
    congr 1
    rw [List.map_map]
    rfl
  rw [hkeys]
  apply List.filterMap_congr
  intro k hk
  unfold AppPathsRoutes.get AppPathsCollector.get
  rw [hsim', lookupKey_map_sort]
  cases lookupKey k c.appPaths with
  | none => rfl
  | some l => rfl

/-- C10: for every insertion sequence, AppPathsRoutes (eager per-add sorting,
live list from get) and AppPathsCollector (lazy per-get copy sorting) are
observationally equivalent: `add` and `push` return the same count at every
step, and `toSortedArray` returns equal aggregate lists. -/
theorem routes_equiv_collector (ps : List (String × String)) :
    (AppPathsRoutes.addTrace ⟨[]⟩ ps).1 = (AppPathsCollector.pushTrace ⟨[]⟩ ps).1
    ∧ (AppPathsRoutes.addTrace ⟨[]⟩ ps).2.toSortedArray =
        (AppPathsCollector.pushTrace ⟨[]⟩ ps).2.toSortedArray := by
  obtain ⟨ht, hs⟩ := addTrace_sim ps ⟨[]⟩ ⟨[]⟩ rfl
  exact ⟨ht, toSortedArray_sim _ _ hs⟩
